import Mathlib

/-!
Shallow embedding of the RAG evaluation engine
(src/jarvis/skills/engineering-team/senior-prompt-engineer/scripts/rag_evaluator.py)
and verification of its specification.

Modelling conventions:
- Python floats are modelled by exact rationals (ℚ); `round(x, 3)` is modelled by
  round-half-even at three decimal places (`round3`).
- Python strings are modelled by `String`; text processing is done on `List Char`.
  The ASCII fragment of `str.lower`, `\w`, `str.strip` and `str.split` is modelled;
  the engine only ever compares tokens produced by its own tokenizer.
- Python `set` is modelled by `Finset String`, `dict` fields by structures with
  `Option` fields standing for possibly-missing keys.
-/

/-- Python `str.lower` on one character (ASCII fragment): maps A-Z to a-z. -/
def pyLower (c : Char) : Char :=
  if 65 ≤ c.toNat ∧ c.toNat ≤ 90 then Char.ofNat (c.toNat + 32) else c

/-- Membership in the regex class `\w` (ASCII fragment): letters, digits, underscore. -/
def isWordChar (c : Char) : Bool := c.isAlphanum || c = '_'

/-- Maximal runs of word characters, as computed by `re.findall(r. b w+ b ., text)`:
`wordRunsAux l acc` scans `l`, `acc` being the (in-order) run currently open. -/
def wordRunsAux : List Char → List Char → List (List Char)
  | [], acc => if acc = [] then [] else [acc]
  | c :: cs, acc =>
    if isWordChar c then wordRunsAux cs (acc ++ [c])
    else if acc = [] then wordRunsAux cs [] else acc :: wordRunsAux cs []

/-- All maximal runs of word characters of a character list, in order. -/
def wordRuns (l : List Char) : List (List Char) := wordRunsAux l []

/-- The stopword set of `tokenize` (`rag_evaluator.py`, lines 80-91), verbatim. -/
def stopwords : List String :=
  ["the", "a", "an", "is", "are", "was", "were", "be", "been",
   "being", "have", "has", "had", "do", "does", "did", "will",
   "would", "could", "should", "may", "might", "must", "shall",
   "can", "to", "of", "in", "for", "on", "with", "at", "by",
   "from", "as", "into", "through", "during", "before", "after",
   "above", "below", "up", "down", "out", "off", "over", "under",
   "again", "further", "then", "once", "here", "there", "when",
   "where", "why", "how", "all", "each", "few", "more", "most",
   "other", "some", "such", "no", "nor", "not", "only", "own",
   "same", "so", "than", "too", "very", "just", "and", "but",
   "if", "or", "because", "until", "while", "it", "this", "that",
   "these", "those", "i", "you", "he", "she", "we", "they"]

/-- The tokenizer (`tokenize`, lines 74-92): lowercase, take maximal runs of
word characters, drop stopwords and tokens of length at most 2. -/
def tokenize (text : String) : List String :=
  let lowered := text.data.map pyLower
  let tokens := (wordRuns lowered).map (fun cs => String.mk cs)
  tokens.filter (fun t => !(stopwords.contains t) && decide (2 < t.length))

example : tokenize "The capital of France is Paris." = ["capital", "france", "paris"] := by
  decide

example : tokenize "the a of" = [] := by decide

/-- Python `' '.join` on a list of strings. -/
def joinSpace : List String → String
  | [] => ""
  | [t] => t
  | t :: t2 :: ts => t ++ " " ++ joinSpace (t2 :: ts)

/-- Round-half-even of a rational to an integer (the rounding mode of Python
`round` on the exact value). -/
def rndHE (q : ℚ) : ℤ :=
  if q - ⌊q⌋ < 1/2 then ⌊q⌋
  else if 1/2 < q - ⌊q⌋ then ⌊q⌋ + 1
  else if ⌊q⌋ % 2 = 0 then ⌊q⌋ else ⌊q⌋ + 1

/-- Python `round(x, 3)` on the exact rational value. -/
def round3 (q : ℚ) : ℚ := (rndHE (q * 1000) : ℚ) / 1000

theorem round3_one : round3 1 = 1 := by
  norm_num [round3, rndHE]

theorem round3_zero : round3 0 = 0 := by
  norm_num [round3, rndHE]

theorem round3_third : round3 (1/3) = 333/1000 := by
  have h : ⌊(1/3 : ℚ) * 1000⌋ = 333 := by
    rw [Int.floor_eq_iff]
    norm_num
  rw [round3, rndHE, h]
  norm_num

/-- Jaccard similarity of two texts over token sets
(`calculate_token_overlap`, lines 102-113). -/
def calculate_token_overlap (text1 text2 : String) : ℚ :=
  let tokens1 : Finset String := (tokenize text1).toFinset
  let tokens2 : Finset String := (tokenize text2).toFinset
  if tokens1 = ∅ ∨ tokens2 = ∅ then 0
  else if (tokens1 ∪ tokens2) ≠ ∅ then
    ((tokens1 ∩ tokens2).card : ℚ) / ((tokens1 ∪ tokens2).card : ℚ)
  else 0

/-- The dynamic-programming LCS table of `calculate_rouge_l` (lines 124-135):
`lcsCell ref cand i j` is `dp[i][j]`, the LCS length of the first `i` tokens of
`ref` and the first `j` tokens of `cand`.  `lcsRowFn prevRow i` computes row
`i+1` from row `i`, exactly by the recurrence used by the nested loops:
a cell is `dp[i-1][j-1] + 1` on a token match, else `max(dp[i-1][j], dp[i][j-1])`. -/
def lcsRowFn (ref cand : List String) (prevRow : ℕ → ℕ) (i : ℕ) : ℕ → ℕ
  | 0 => 0
  | j + 1 =>
    match ref[i]?, cand[j]? with
    | some a, some b =>
      if a = b then prevRow j + 1
      else max (prevRow (j + 1)) (lcsRowFn ref cand prevRow i j)
    | _, _ => max (prevRow (j + 1)) (lcsRowFn ref cand prevRow i j)

/-- Row-indexed view of the DP table of `calculate_rouge_l`. -/
def lcsCell (ref cand : List String) : ℕ → ℕ → ℕ
  | 0 => fun _ => 0
  | i + 1 => lcsRowFn ref cand (lcsCell ref cand i) i

/-- ROUGE-L F1 score (`calculate_rouge_l`, lines 116-144): tokenize both texts,
return 0 if either token sequence is empty, else compute the LCS length by
dynamic programming, precision = LCS/n, recall = LCS/m, and return 0 if
precision + recall = 0, else their harmonic mean. -/
def calculate_rouge_l (reference candidate : String) : ℚ :=
  let ref_tokens := tokenize reference
  let cand_tokens := tokenize candidate
  if ref_tokens = [] ∨ cand_tokens = [] then 0
  else
    let m := ref_tokens.length
    let n := cand_tokens.length
    let lcs_length := lcsCell ref_tokens cand_tokens m n
    let prec : ℚ := if 0 < n then (lcs_length : ℚ) / (n : ℚ) else 0
    let recl : ℚ := if 0 < m then (lcs_length : ℚ) / (m : ℚ) else 0
    if prec + recl = 0 then 0
    else 2 * prec * recl / (prec + recl)

example : lcsCell ["capital", "france", "paris"] ["paris", "capital", "france"] 3 3 = 2 := by
  decide

/-- First-occurrence deduplication, modelling iteration order of a Python
`Counter` (insertion order of the underlying dict). -/
def dedupFirstAux : List String → List String → List String
  | [], _ => []
  | t :: ts, seen =>
    if t ∈ seen then dedupFirstAux ts seen else t :: dedupFirstAux ts (t :: seen)

/-- Distinct elements of a list, keeping first occurrences in order. -/
def dedupFirst (l : List String) : List String := dedupFirstAux l []

/-- Stable insertion (descending by count) used to model
`Counter.most_common`: an element is placed after all existing elements of
greater-or-equal count, so earlier-seen terms win ties. -/
def insertDesc (x : String × ℕ) : List (String × ℕ) → List (String × ℕ)
  | [] => [x]
  | y :: ys => if x.2 ≤ y.2 then y :: insertDesc x ys else x :: y :: ys

/-- Stable sort, descending by count (model of the sorted-by-frequency order
produced by `Counter.most_common`, which is stable in insertion order). -/
def sortByCountDesc (l : List (String × ℕ)) : List (String × ℕ) :=
  l.foldl (fun acc x => insertDesc x acc) []

/-- Key-term extraction (`extract_key_terms`, lines 95-99): the `top_n` most
frequent distinct tokens, ties broken by first occurrence. -/
def extract_key_terms (text : String) (top_n : ℕ) : List String :=
  let tokens := tokenize text
  let freq := (dedupFirst tokens).map (fun t => (t, tokens.count t))
  ((sortByCountDesc freq).take top_n).map Prod.fst

example : extract_key_terms "water water boils boils water degrees" 2 =
    ["water", "boils"] := by decide

/-- Python whitespace characters stripped by `str.strip()` (ASCII fragment). -/
def isPySpace (c : Char) : Bool :=
  c = ' ' || c = '\t' || c = '\n' || c = '\r' || c = Char.ofNat 11 || c = Char.ofNat 12

/-- Python `str.strip()` on a character list: drop leading and trailing whitespace. -/
def stripChars (l : List Char) : List Char :=
  ((l.dropWhile isPySpace).reverse.dropWhile isPySpace).reverse

/-- Python `str.strip()`. -/
def pyStrip (s : String) : String := String.mk (stripChars s.data)

/-- Sentence terminators of `extract_claims`: the regex class `[.!?]`. -/
def isTermChar (c : Char) : Bool := c = '.' || c = '!' || c = '?'

/-- Model of `re.split(r.[.!?]+., answer)`: fragments between maximal runs of
sentence terminators.  The second argument is `some cur` while a fragment
`cur` is being accumulated and `none` while inside a terminator run. -/
def splitTermAux : List Char → Option (List Char) → List (List Char)
  | [], some cur => [cur]
  | [], none => [[]]
  | c :: cs, some cur =>
    if isTermChar c then cur :: splitTermAux cs none
    else splitTermAux cs (some (cur ++ [c]))
  | c :: cs, none =>
    if isTermChar c then splitTermAux cs none
    else splitTermAux cs (some [c])

/-- Sentence fragments of an answer, as produced by `re.split(r.[.!?]+., answer)`. -/
def splitSentences (answer : String) : List String :=
  (splitTermAux answer.data (some [])).map (fun cs => String.mk cs)

example : splitSentences "a.. b! c" = ["a", " b", " c"] := by decide
example : splitSentences "x." = ["x", ""] := by decide

/-- The accumulation loop of `extract_claims` (lines 177-181): strip each
fragment and keep it when its stripped length exceeds 10. -/
def collectClaims : List String → List String
  | [] => []
  | s :: ss =>
    let sentence := pyStrip s
    if 10 < sentence.length then sentence :: collectClaims ss else collectClaims ss

/-- Claim extraction (`extract_claims`, lines 171-182): split the answer on
sentence terminators, strip fragments, keep those longer than 10 characters. -/
def extract_claims (answer : String) : List String :=
  collectClaims (splitSentences answer)

example : extract_claims "The capital of France is Paris. It has people." =
    ["The capital of France is Paris", "It has people"] := by decide

/-- Claim-support check (`check_claim_support`, lines 185-203): an empty claim
token set is vacuously supported with score 1; otherwise the score is the mean
of the token-overlap ratio and the ROUGE-L score of the context against the
claim, and the claim counts as supported exactly when the score exceeds 0.3. -/
def check_claim_support (claim context : String) : Bool × ℚ :=
  let claim_terms : Finset String := (tokenize claim).toFinset
  let context_terms : Finset String := (tokenize context).toFinset
  if claim_terms = ∅ then (true, 1)
  else
    let overlap := claim_terms ∩ context_terms
    let supportRatio : ℚ := (overlap.card : ℚ) / (claim_terms.card : ℚ)
    let rouge_score := calculate_rouge_l context claim
    let support_score := 1/2 * supportRatio + 1/2 * rouge_score
    (decide (3/10 < support_score), support_score)

/-- Evaluation record for a single context
(dataclass `ContextEvaluation`, lines 39-47).  Python builds
`key_terms_covered` and `missing_terms` by listing a `set` in unspecified
order; the model lists them in sorted order. -/
structure ContextEvaluation where
  context_id : String
  relevance_score : ℚ
  token_overlap : ℚ
  key_terms_covered : List String
  missing_terms : List String
deriving DecidableEq

/-- Context-relevance scoring (`evaluate_context_relevance`, lines 147-168):
relevance = 0.6 * key-term coverage + 0.4 * Jaccard overlap, rounded to 3
decimals. -/
def evaluate_context_relevance (question context : String) (context_id : String) :
    ContextEvaluation :=
  let question_terms : Finset String := (extract_key_terms question 15).toFinset
  let context_terms : Finset String := (extract_key_terms context 30).toFinset
  let covered := question_terms ∩ context_terms
  let missing := question_terms \ context_terms
  let term_coverage : ℚ :=
    if question_terms ≠ ∅ then (covered.card : ℚ) / (question_terms.card : ℚ) else 0
  let token_overlap := calculate_token_overlap question context
  let relevance := 3/5 * term_coverage + 2/5 * token_overlap
  { context_id := context_id
    relevance_score := round3 relevance
    token_overlap := round3 token_overlap
    key_terms_covered := covered.sort (· ≤ ·)
    missing_terms := missing.sort (· ≤ ·) }

/-- Entry of the per-claim evaluation list built by
`evaluate_answer_faithfulness` (lines 221-238): the Python dict with keys
`claim`, `supported`, `score` and one `context_i` key per context whose
per-claim score exceeds 0.3 (kept here as index/score pairs in key order). -/
structure ClaimEvalEntry where
  claim : String
  supported : Bool
  score : ℚ
  ctxScores : List (ℕ × ℚ)
deriving DecidableEq

/-- Builds one per-claim evaluation entry (loop body, lines 221-238). -/
def claimEntry (contexts : List String) (combined : String) (claim : String) :
    ClaimEvalEntry :=
  let res := check_claim_support claim combined
  { claim := if 100 < claim.length then claim.take 100 ++ "..." else claim
    supported := res.1
    score := round3 res.2
    ctxScores := contexts.enum.filterMap (fun p =>
      let ctx_score := (check_claim_support claim p.2).2
      if 3/10 < ctx_score then some (p.1, round3 ctx_score) else none) }

/-- The `context_used` accumulator of `evaluate_answer_faithfulness`
(lines 230-236): context labels in first-contribution order, no duplicates. -/
def contextUsedList (claims contexts : List String) : List String :=
  claims.foldl (fun acc claim =>
    contexts.enum.foldl (fun acc2 p =>
      let name := "context_" ++ toString p.1
      if 3/10 < (check_claim_support claim p.2).2 ∧ name ∉ acc2
      then acc2 ++ [name] else acc2) acc) []

/-- Evaluation of one answer (dataclass `AnswerEvaluation`, lines 49-57). -/
structure AnswerEvaluation where
  question_id : String
  faithfulness_score : ℚ
  groundedness_score : ℚ
  claims : List ClaimEvalEntry
  unsupported_claims : List String
  context_used : List String
deriving DecidableEq

/-- Answer-faithfulness evaluation (`evaluate_answer_faithfulness`,
lines 206-258): extract claims, join the contexts into one combined body,
score every claim against it; faithfulness is the supported fraction
(1 with no claims), groundedness the mean of the per-claim rounded scores
(1 with no claims); both rounded to 3 decimals. -/
def evaluate_answer_faithfulness (question answer : String) (contexts : List String)
    (question_id : String) : AnswerEvaluation :=
  let claims := extract_claims answer
  let combined_context := joinSpace contexts
  let claim_evaluations := claims.map (claimEntry contexts combined_context)
  let supported_claims := (claims.filter (fun c => (check_claim_support c combined_context).1)).length
  let unsupported := (claims.filter (fun c => !(check_claim_support c combined_context).1)).map
    (fun c => c.take 100)
  let faithfulness : ℚ :=
    if claims ≠ [] then (supported_claims : ℚ) / (claims.length : ℚ) else 1
  let avg_score : ℚ :=
    if claim_evaluations ≠ [] then
      ((claim_evaluations.map (fun c => c.score)).sum) / (claim_evaluations.length : ℚ)
    else 1
  { question_id := question_id
    faithfulness_score := round3 faithfulness
    groundedness_score := round3 avg_score
    claims := claim_evaluations
    unsupported_claims := unsupported
    context_used := contextUsedList claims contexts }

/-- Python slicing `l[:k]` for an `int` k (negative k counts from the end). -/
def pyTake {α : Type} (k : ℤ) (l : List α) : List α :=
  if 0 ≤ k then l.take k.toNat else l.take ((l.length : ℤ) + k).toNat

/-- The MRR loop of `calculate_retrieval_metrics` (lines 277-281): reciprocal
of the 1-indexed rank of the first relevant document, 0 when none occurs. -/
def mrrLoop (relevant : Finset String) : List String → ℕ → ℚ
  | [], _ => 0
  | doc :: docs, i => if doc ∈ relevant then 1 / (i + 1 : ℚ) else mrrLoop relevant docs (i + 1)

/-- Retrieval quality metrics (dataclass `RetrievalMetrics`, lines 29-36). -/
structure RetrievalMetrics where
  precision_at_k : ℚ
  recall_at_k : ℚ
  mrr : ℚ
  ndcg_at_k : ℝ
  k : ℤ

/-- Round-half-even of a real to an integer (model of Python `round`). -/
noncomputable def rndHER (x : ℝ) : ℤ :=
  if x - ⌊x⌋ < 1/2 then ⌊x⌋
  else if 1/2 < x - ⌊x⌋ then ⌊x⌋ + 1
  else if ⌊x⌋ % 2 = 0 then ⌊x⌋ else ⌊x⌋ + 1

/-- Python `round(x, 3)` on a real value. -/
noncomputable def round3R (x : ℝ) : ℝ := (rndHER (x * 1000) : ℝ) / 1000

/-- NDCG@K of `calculate_retrieval_metrics` (lines 283-291), with binary
gains and `math.log2` modelled by `Real.logb 2`. -/
noncomputable def ndcgValue (retrieved_k : List String) (relevant : Finset String)
    (k : ℤ) : ℝ :=
  let dcg : ℝ := (retrieved_k.enum.map (fun p =>
    (if p.2 ∈ relevant then (1 : ℝ) else 0) / Real.logb 2 (p.1 + 2))).sum
  let idcg : ℝ := ((List.range (min (relevant.card : ℤ) k).toNat).map (fun i =>
    (1 : ℝ) / Real.logb 2 (i + 2))).sum
  if 0 < idcg then dcg / idcg else 0

/-- Standard retrieval metrics (`calculate_retrieval_metrics`, lines 261-299):
precision = relevant-in-top-K / K (0 when K is not positive), recall =
relevant-in-top-K / |relevant| (0 when the relevant set is empty), MRR from
the first relevant rank in the full list, NDCG@K with binary gains; all
rounded to 3 decimals. -/
noncomputable def calculate_retrieval_metrics (retrieved : List String)
    (relevant : Finset String) (k : ℤ) : RetrievalMetrics :=
  let retrieved_k := pyTake k retrieved
  let relevant_in_k := (retrieved_k.filter (fun doc => doc ∈ relevant)).length
  let prec : ℚ := if 0 < k then (relevant_in_k : ℚ) / (k : ℚ) else 0
  let recl : ℚ := if relevant ≠ ∅ then (relevant_in_k : ℚ) / (relevant.card : ℚ) else 0
  let mrr := mrrLoop relevant retrieved 0
  { precision_at_k := round3 prec
    recall_at_k := round3 recl
    mrr := round3 mrr
    ndcg_at_k := round3R (ndcgValue retrieved_k relevant k)
    k := k }

/-- The retrieval-metrics dict stored in the report by `evaluate_rag_system`
(lines 425-429) and read back by `generate_recommendations` via
`dict.get` (line 331); `Option` fields model possibly-missing keys. -/
structure RetrievalMetricsDict where
  precision_at_k : Option ℚ
  estimated_recall : Option ℚ
  k : Option ℤ
deriving DecidableEq

/-- One entry of the report issues list (dicts built at lines 393-398
and 402-407). -/
inductive Issue where
  | unsupported_claim (question_id : String) (claims : List String)
  | low_relevance (question_id : String) (contexts : List String)
deriving DecidableEq

/-- One recommendation message of `generate_recommendations` (lines 302-340);
the constructor tags abstract the literal message strings, one per threshold
rule plus the all-targets-met message. -/
inductive Recommendation where
  | improve_context_relevance
  | improve_faithfulness
  | improve_groundedness
  | improve_coverage
  | improve_retrieval_precision
  | all_targets_met
deriving DecidableEq

/-- Per-question detail entry (verbose mode, lines 409-415).  The
`answer_faithfulness` field copies the LAST element of the accumulated
faithfulness list, as the source does. -/
structure QuestionDetail where
  question_id : String
  question : String
  context_scores : List ContextEvaluation
  answer_faithfulness : Option ℚ
deriving DecidableEq

/-- Complete evaluation report (dataclass `RAGEvaluationReport`, lines 60-71). -/
structure RAGEvaluationReport where
  total_questions : ℕ
  avg_context_relevance : ℚ
  avg_faithfulness : ℚ
  avg_groundedness : ℚ
  retrieval_metrics : RetrievalMetricsDict
  coverage : ℚ
  issues : List Issue
  recommendations : List Recommendation
  question_details : List QuestionDetail
deriving DecidableEq

/-- Threshold-based recommendations (`generate_recommendations`,
lines 302-340): one message per breached target among relevance < 0.80,
faithfulness < 0.95, groundedness < 0.85, coverage < 0.90 and
precision@K < 0.70 (missing key read as 0); a single all-targets-met
message when no threshold is breached. -/
def generate_recommendations (report : RAGEvaluationReport) : List Recommendation :=
  let recs : List Recommendation :=
    (if report.avg_context_relevance < 4/5 then [Recommendation.improve_context_relevance] else []) ++
    (if report.avg_faithfulness < 19/20 then [Recommendation.improve_faithfulness] else []) ++
    (if report.avg_groundedness < 17/20 then [Recommendation.improve_groundedness] else []) ++
    (if report.coverage < 9/10 then [Recommendation.improve_coverage] else []) ++
    (if report.retrieval_metrics.precision_at_k.getD 0 < 7/10 then
      [Recommendation.improve_retrieval_precision] else [])
  if recs = [] then [Recommendation.all_targets_met] else recs

/-- One question record of the input dataset (a JSON dict; `Option` fields
model possibly-missing keys, read with defaults at lines 360-363). -/
structure QuestionData where
  id : Option String
  question : Option String
  query : Option String
  answer : Option String
  response : Option String
  expected : Option String
  ground_truth : Option String
deriving DecidableEq

/-- One context record of the input dataset (a JSON dict; fields read at
lines 368-369 and 373-374). -/
structure ContextData where
  question_id : Option String
  query_id : Option String
  content : Option String
  text : Option String
deriving DecidableEq

/-- Text payload of a context: `ctx.get('content', ctx.get('text', ''))`. -/
def contentOf (ctx : ContextData) : String := ctx.content.getD (ctx.text.getD "")

/-- Question id resolution (line 361):
`q_data.get('id', str(questions.index(q_data)))`. -/
def questionIdOf (questions : List QuestionData) (q : QuestionData) : String :=
  q.id.getD (toString (questions.indexOf q))

/-- Context resolution for one question (lines 365-374): contexts explicitly
linked by `question_id` or `query_id`, else the first K contexts of the pool. -/
def resolvedContexts (questions : List QuestionData) (contexts : List ContextData)
    (k : ℤ) (q : QuestionData) : List String :=
  let qid := questionIdOf questions q
  let explicit := (contexts.filter (fun c =>
    c.question_id = some qid ∨ c.query_id = some qid)).map contentOf
  if explicit = [] then (pyTake k contexts).map contentOf else explicit

/-- Accumulator state of the main loop of `evaluate_rag_system`
(lines 351-357). -/
structure LoopState where
  all_context_scores : List ℚ
  all_faithfulness_scores : List ℚ
  all_groundedness_scores : List ℚ
  issues : List Issue
  question_details : List QuestionDetail
  questions_with_context : ℕ
deriving DecidableEq

/-- Loop body of `evaluate_rag_system` (lines 359-415) for one question. -/
def processQuestion (questions : List QuestionData) (contexts : List ContextData)
    (k : ℤ) (verbose : Bool) (st : LoopState) (q_data : QuestionData) : LoopState :=
  let question := q_data.question.getD (q_data.query.getD "")
  let question_id := questionIdOf questions q_data
  let answer := q_data.answer.getD (q_data.response.getD "")
  let q_contexts := resolvedContexts questions contexts k q_data
  let questions_with_context :=
    st.questions_with_context + (if q_contexts ≠ [] then 1 else 0)
  let context_evals := (pyTake k q_contexts).enum.map (fun p =>
    evaluate_context_relevance question p.2 ("ctx_" ++ toString p.1))
  let all_context_scores :=
    st.all_context_scores ++ context_evals.map (fun e => e.relevance_score)
  let answerStep : List ℚ × List ℚ × List Issue :=
    if answer ≠ "" ∧ q_contexts ≠ [] then
      let answer_eval := evaluate_answer_faithfulness question answer q_contexts question_id
      (st.all_faithfulness_scores ++ [answer_eval.faithfulness_score],
       st.all_groundedness_scores ++ [answer_eval.groundedness_score],
       st.issues ++ (if answer_eval.unsupported_claims ≠ [] then
         [Issue.unsupported_claim question_id (answer_eval.unsupported_claims.take 3)] else []))
    else (st.all_faithfulness_scores, st.all_groundedness_scores, st.issues)
  let low_relevance := context_evals.filter (fun e => e.relevance_score < 1/2)
  let issues := answerStep.2.2 ++ (if low_relevance ≠ [] then
    [Issue.low_relevance question_id (low_relevance.map (fun e => e.context_id))] else [])
  let question_details := st.question_details ++ (if verbose then
    [{ question_id := question_id
       question := question.take 100
       context_scores := context_evals
       answer_faithfulness := answerStep.1.getLast? }] else [])
  { all_context_scores := all_context_scores
    all_faithfulness_scores := answerStep.1
    all_groundedness_scores := answerStep.2.1
    issues := issues
    question_details := question_details
    questions_with_context := questions_with_context }

/-- Dataset-level evaluation (`evaluate_rag_system`, lines 343-445): run the
per-question loop, average the collected scores, compute coverage and the
estimated retrieval metrics, cap issues at 20, then attach recommendations. -/
def evaluate_rag_system (questions : List QuestionData) (contexts : List ContextData)
    (k : ℤ) (verbose : Bool) : RAGEvaluationReport :=
  let final := questions.foldl (processQuestion questions contexts k verbose)
    { all_context_scores := []
      all_faithfulness_scores := []
      all_groundedness_scores := []
      issues := []
      question_details := []
      questions_with_context := 0 }
  let avg_context_relevance : ℚ :=
    if final.all_context_scores ≠ [] then
      final.all_context_scores.sum / (final.all_context_scores.length : ℚ) else 0
  let avg_faithfulness : ℚ :=
    if final.all_faithfulness_scores ≠ [] then
      final.all_faithfulness_scores.sum / (final.all_faithfulness_scores.length : ℚ) else 0
  let avg_groundedness : ℚ :=
    if final.all_groundedness_scores ≠ [] then
      final.all_groundedness_scores.sum / (final.all_groundedness_scores.length : ℚ) else 0
  let coverage : ℚ :=
    if questions ≠ [] then (final.questions_with_context : ℚ) / (questions.length : ℚ) else 0
  let high_relevance := (final.all_context_scores.filter (fun s => 1/2 < s)).length
  let retrieval_metrics : RetrievalMetricsDict :=
    { precision_at_k := some (round3 (if final.all_context_scores ≠ [] then
        (high_relevance : ℚ) / (final.all_context_scores.length : ℚ) else 0))
      estimated_recall := some (round3 coverage)
      k := some k }
  let report : RAGEvaluationReport :=
    { total_questions := questions.length
      avg_context_relevance := round3 avg_context_relevance
      avg_faithfulness := round3 avg_faithfulness
      avg_groundedness := round3 avg_groundedness
      retrieval_metrics := retrieval_metrics
      coverage := round3 coverage
      issues := final.issues.take 20
      recommendations := []
      question_details := if verbose then final.question_details else [] }
  { report with recommendations := generate_recommendations report }

theorem pyLower_idem (c : Char) : pyLower (pyLower c) = pyLower c := by
  unfold pyLower
  by_cases h : 65 ≤ c.toNat ∧ c.toNat ≤ 90
  · have hv : (c.toNat + 32).isValidChar := Or.inl (by omega)
    have ht : (Char.ofNat (c.toNat + 32)).toNat = c.toNat + 32 := by
      rw [Char.ofNat, dif_pos hv]
      simp [Char.ofNatAux, Char.toNat, UInt32.toNat]
    simp only [if_pos h, ht]
    rw [if_neg (by omega)]
  · simp only [if_neg h]

theorem rndHE_intCast (n : ℤ) : rndHE (n : ℚ) = n := by
  rw [rndHE]
  simp

theorem round3_of_eq_int (q : ℚ) (n : ℤ) (h : q * 1000 = (n : ℚ)) : round3 q = q := by
  rw [round3, h, rndHE_intCast, div_eq_iff (by norm_num)]
  linarith

theorem rndHE_nonneg (q : ℚ) (h : 0 ≤ q) : 0 ≤ rndHE q := by
  have hf : (0 : ℤ) ≤ ⌊q⌋ := Int.floor_nonneg.mpr h
  rw [rndHE]
  split_ifs <;> omega

theorem rndHE_le (q : ℚ) (n : ℤ) (h : q ≤ (n : ℚ)) : rndHE q ≤ n := by
  have hf : ⌊q⌋ ≤ n := by
    have := Int.floor_le_floor h
    simpa using this
  rw [rndHE]
  split_ifs with h1 h2 h3
  · exact hf
  · -- fractional part exceeds one half, so the floor is strictly below q
    have hlt : (⌊q⌋ : ℚ) + 1/2 < q := by linarith
    have : (⌊q⌋ : ℚ) < n := by
      have := Int.floor_le q
      linarith
    have : ⌊q⌋ < n := by exact_mod_cast this
    omega
  · exact hf
  · have hl2 : ¬ (q - ⌊q⌋ < 1/2) := h1
    have hge : (⌊q⌋ : ℚ) + 1/2 ≤ q := by push_neg at hl2; linarith
    have : (⌊q⌋ : ℚ) < n := by linarith
    have : ⌊q⌋ < n := by exact_mod_cast this
    omega

theorem round3_nonneg (q : ℚ) (h : 0 ≤ q) : 0 ≤ round3 q := by
  have h0 := rndHE_nonneg (q * 1000) (by positivity)
  rw [round3]
  have : (0 : ℚ) ≤ (rndHE (q * 1000) : ℚ) := by exact_mod_cast h0
  positivity

theorem round3_le_one (q : ℚ) (h : q ≤ 1) : round3 q ≤ 1 := by
  have h0 : rndHE (q * 1000) ≤ 1000 := rndHE_le (q * 1000) 1000 (by push_cast; linarith)
  rw [round3, div_le_one (by norm_num)]
  exact_mod_cast h0

/-- C7: the Jaccard token-overlap function is symmetric in its two text
arguments, returns 0 whenever either token set is empty, and returns 1
whenever a text with a non-empty token set is compared with itself. -/
theorem claim_C7_jaccard :
    (∀ t1 t2 : String, calculate_token_overlap t1 t2 = calculate_token_overlap t2 t1) ∧
    (∀ t1 t2 : String,
      (tokenize t1).toFinset = ∅ ∨ (tokenize t2).toFinset = ∅ →
      calculate_token_overlap t1 t2 = 0) ∧
    (∀ t : String, (tokenize t).toFinset ≠ ∅ → calculate_token_overlap t t = 1) := by
  refine ⟨?_, ?_, ?_⟩
  · intro t1 t2
    unfold calculate_token_overlap
    by_cases h1 : (tokenize t1).toFinset = ∅ <;>
      by_cases h2 : (tokenize t2).toFinset = ∅ <;>
      simp [h1, h2, Finset.inter_comm, Finset.union_comm]
  · intro t1 t2 h
    unfold calculate_token_overlap
    simp only [if_pos h]
  · intro t h
    unfold calculate_token_overlap
    have hcard : ((tokenize t).toFinset.card : ℚ) ≠ 0 := by
      have := Finset.card_ne_zero_of_mem (Finset.nonempty_of_ne_empty h).choose_spec
      exact_mod_cast this
    simp [h, Finset.inter_self, Finset.union_self, div_self hcard]

/-- Witness for C7 at concrete inputs: an empty-token text scores 0 against
anything, and a non-empty text scores 1 against itself. -/
theorem claim_C7_jaccard_witness :
    calculate_token_overlap "paris" "" = 0 ∧
    calculate_token_overlap "paris" "paris" = 1 := by
  exact ⟨claim_C7_jaccard.2.1 "paris" "" (Or.inr (by decide)),
    claim_C7_jaccard.2.2 "paris" (by decide)⟩

/-- C4: claim support is vacuous (supported, score 1) for a claim with no
tokens; otherwise the score is the announced mix of overlap ratio and
ROUGE-L, and the supported flag holds exactly when the score exceeds 0.3. -/
theorem claim_C4_claim_support : ∀ claim context : String,
    ((tokenize claim).toFinset = ∅ → check_claim_support claim context = (true, 1)) ∧
    ((tokenize claim).toFinset ≠ ∅ →
      (check_claim_support claim context).2 =
        1/2 * ((((tokenize claim).toFinset ∩ (tokenize context).toFinset).card : ℚ) /
          ((tokenize claim).toFinset.card : ℚ)) +
        1/2 * calculate_rouge_l context claim ∧
      ((check_claim_support claim context).1 = true ↔
        3/10 < (check_claim_support claim context).2)) := by
  intro claim context
  constructor
  · intro h
    unfold check_claim_support
    simp only [if_pos h]
  · intro h
    have hne : tokenize claim ≠ [] := by
      intro hnil
      exact h (by simp [hnil])
    unfold check_claim_support
    simp [hne, h]

/-- Witness for C4 at concrete inputs: a stopword-only claim is vacuously
supported; a real claim gets the mixed score and threshold decision. -/
theorem claim_C4_claim_support_witness :
    check_claim_support "the" "x" = (true, 1) ∧
    ((check_claim_support "paris" "paris").2 =
        1/2 * ((((tokenize "paris").toFinset ∩ (tokenize "paris").toFinset).card : ℚ) /
          ((tokenize "paris").toFinset.card : ℚ)) +
        1/2 * calculate_rouge_l "paris" "paris" ∧
      ((check_claim_support "paris" "paris").1 = true ↔
        3/10 < (check_claim_support "paris" "paris").2)) :=
  ⟨(claim_C4_claim_support "the" "x").1 (by decide),
   (claim_C4_claim_support "paris" "paris").2 (by decide)⟩

theorem collectClaims_eq_filter (l : List String) :
    collectClaims l = (l.map pyStrip).filter (fun t => decide (10 < t.length)) := by
  induction l with
  | nil => rfl
  | cons s ss ih =>
    by_cases h : 10 < (pyStrip s).length <;>
      simp [collectClaims, List.filter_cons, h, ih]

/-- Counterexample for C5: the trimmed fragment "abcdefghij" has length
exactly 10, so by the claim it should be kept, but `extract_claims`
discards it (the code keeps only fragments of length strictly greater
than 10). -/
theorem claim_C5_counterexample :
    extract_claims "abcdefghij. next fragment" = ["next fragment"] ∧
    (pyStrip "abcdefghij").length = 10 := by
  constructor
  · decide
  · decide

/-- C5 (amended): `extract_claims` splits on sentence terminators, trims each
fragment, and keeps exactly the trimmed fragments whose length is strictly
greater than 10 characters, in their original order. -/
theorem claim_C5_extract_claims : ∀ answer : String,
    extract_claims answer =
      ((splitSentences answer).map pyStrip).filter (fun t => decide (10 < t.length)) ∧
    (∀ c ∈ extract_claims answer, 10 < c.length) ∧
    List.Sublist (extract_claims answer) ((splitSentences answer).map pyStrip) := by
  intro answer
  have he : extract_claims answer =
      ((splitSentences answer).map pyStrip).filter (fun t => decide (10 < t.length)) :=
    collectClaims_eq_filter (splitSentences answer)
  refine ⟨he, ?_, ?_⟩
  · intro c hc
    rw [he] at hc
    have := List.of_mem_filter hc
    simpa using this
  · rw [he]
    exact List.filter_sublist _

/-- Witness for C5 at a concrete input: an 11-character fragment is kept and
indeed has length above 10. -/
theorem claim_C5_extract_claims_witness :
    extract_claims "abcdefghijk!" =
      ((splitSentences "abcdefghijk!").map pyStrip).filter (fun t => decide (10 < t.length)) ∧
    10 < ("abcdefghijk" : String).length :=
  ⟨(claim_C5_extract_claims "abcdefghijk!").1,
   (claim_C5_extract_claims "abcdefghijk!").2.1 "abcdefghijk" (by decide)⟩

theorem crm_precision (retrieved : List String) (relevant : Finset String) (k : ℤ) :
    (calculate_retrieval_metrics retrieved relevant k).precision_at_k =
      round3 (if 0 < k then
        (((pyTake k retrieved).filter (fun doc => doc ∈ relevant)).length : ℚ) / (k : ℚ)
      else 0) := rfl

theorem crm_recall (retrieved : List String) (relevant : Finset String) (k : ℤ) :
    (calculate_retrieval_metrics retrieved relevant k).recall_at_k =
      round3 (if relevant ≠ ∅ then
        (((pyTake k retrieved).filter (fun doc => doc ∈ relevant)).length : ℚ) / (relevant.card : ℚ)
      else 0) := rfl

theorem crm_mrr (retrieved : List String) (relevant : Finset String) (k : ℤ) :
    (calculate_retrieval_metrics retrieved relevant k).mrr =
      round3 (mrrLoop relevant retrieved 0) := rfl

theorem mrrLoop_of_prefix (relevant : Finset String) (pre : List String)
    (hpre : ∀ e ∈ pre, e ∉ relevant) (d : String) (hd : d ∈ relevant) (rest : List String) :
    ∀ i : ℕ, mrrLoop relevant (pre ++ d :: rest) i = 1 / ((i : ℚ) + (pre.length : ℚ) + 1) := by
  induction pre with
  | nil =>
    intro i
    simp [mrrLoop, hd]
  | cons e pre ih =>
    intro i
    have he : e ∉ relevant := hpre e (by simp)
    simp only [List.cons_append, List.append_eq, mrrLoop, if_neg he]
    rw [ih (fun x hx => hpre x (by simp [hx])) (i + 1)]
    congr 1
    simp only [List.length_cons]
    push_cast
    ring

theorem mrrLoop_of_none (relevant : Finset String) (l : List String)
    (h : ∀ d ∈ l, d ∉ relevant) : ∀ i : ℕ, mrrLoop relevant l i = 0 := by
  induction l with
  | nil => intro i; simp [mrrLoop]
  | cons d ds ih =>
    intro i
    have hd : d ∉ relevant := h d (by simp)
    simp only [mrrLoop, if_neg hd]
    exact ih (fun x hx => h x (by simp [hx])) (i + 1)

/-- Counterexample for C2: with retrieved list ["x", "y", "z"] and relevant
set containing only "z", the first relevant id has 1-indexed rank 3, but the
returned reciprocal rank is 0.333 (the code rounds to 3 decimals), which is
not 1/3. -/
theorem claim_C2_counterexample :
    (calculate_retrieval_metrics ["x", "y", "z"] {"z"} 5).mrr = 333/1000 ∧
    (333/1000 : ℚ) ≠ 1/3 := by
  constructor
  · rw [crm_mrr]
    have h2 : mrrLoop {"z"} ["x", "y", "z"] 0 = 1/3 := by
      norm_num [mrrLoop]
      rw [if_neg (by decide : ¬("x" = "z")), if_neg (by decide : ¬("y" = "z"))]
    rw [h2, round3_third]
  · norm_num

/-- C2 (amended): the documented example yields precision 0.4, recall 1.0 and
reciprocal rank 0.5; in general the returned mrr is the reciprocal of the
1-indexed rank of the first relevant id in the full retrieved list, rounded
to 3 decimal places (the original claim omitted the rounding), and 0 when no
relevant id appears. -/
theorem claim_C2_retrieval_example :
    ((calculate_retrieval_metrics ["docA", "docB", "docC", "docD", "docE"]
        {"docB", "docD"} 5).precision_at_k = 2/5 ∧
     (calculate_retrieval_metrics ["docA", "docB", "docC", "docD", "docE"]
        {"docB", "docD"} 5).recall_at_k = 1 ∧
     (calculate_retrieval_metrics ["docA", "docB", "docC", "docD", "docE"]
        {"docB", "docD"} 5).mrr = 1/2) ∧
    (∀ (retrieved : List String) (relevant : Finset String) (k : ℤ)
       (pre : List String) (d : String) (rest : List String),
      retrieved = pre ++ d :: rest → (∀ e ∈ pre, e ∉ relevant) → d ∈ relevant →
      (calculate_retrieval_metrics retrieved relevant k).mrr =
        round3 (1 / ((pre.length : ℚ) + 1))) ∧
    (∀ (retrieved : List String) (relevant : Finset String) (k : ℤ),
      (∀ d ∈ retrieved, d ∉ relevant) →
      (calculate_retrieval_metrics retrieved relevant k).mrr = 0) := by
  refine ⟨⟨?_, ?_, ?_⟩, ?_, ?_⟩
  · have hlen : ((pyTake 5 ["docA", "docB", "docC", "docD", "docE"]).filter
        (fun doc => doc ∈ ({"docB", "docD"} : Finset String))).length = 2 := by decide
    rw [crm_precision, hlen]
    rw [if_pos (by norm_num)]
    rw [show (((2 : ℕ) : ℚ) / ((5 : ℤ) : ℚ)) = 2/5 by norm_num]
    exact round3_of_eq_int (2/5) 400 (by norm_num)
  · have hlen : ((pyTake 5 ["docA", "docB", "docC", "docD", "docE"]).filter
        (fun doc => doc ∈ ({"docB", "docD"} : Finset String))).length = 2 := by decide
    rw [crm_recall, hlen]
    rw [if_pos (by decide : ({"docB", "docD"} : Finset String) ≠ ∅)]
    rw [show ((({"docB", "docD"} : Finset String).card : ℚ)) = 2 by
      rw [show ({"docB", "docD"} : Finset String).card = 2 from by decide]; norm_num]
    rw [show (((2 : ℕ) : ℚ) / (2 : ℚ)) = 1 by norm_num]
    exact round3_one
  · have h := mrrLoop_of_prefix {"docB", "docD"} ["docA"] (by decide) "docB" (by decide)
      ["docC", "docD", "docE"] 0
    have h2 : mrrLoop {"docB", "docD"} ["docA", "docB", "docC", "docD", "docE"] 0 =
        1 / ((0 : ℚ) + ((["docA"] : List String).length : ℚ) + 1) := h
    rw [crm_mrr, h2]
    rw [show (1 : ℚ) / ((0 : ℚ) + ((["docA"] : List String).length : ℚ) + 1) = 1/2 by norm_num]
    exact round3_of_eq_int (1/2) 500 (by norm_num)
  · intro retrieved relevant k pre d rest hret hpre hd
    subst hret
    rw [crm_mrr, mrrLoop_of_prefix relevant pre hpre d hd rest 0]
    congr 1
    norm_num
  · intro retrieved relevant k h
    rw [crm_mrr, mrrLoop_of_none relevant retrieved h 0, round3_zero]

/-- Witness for C2 at concrete inputs: first relevant id at rank 2 gives
mrr round3(1/2); no relevant id gives mrr 0. -/
theorem claim_C2_retrieval_example_witness :
    (calculate_retrieval_metrics ["a", "b"] {"b"} 7).mrr =
      round3 (1 / (((["a"] : List String).length : ℚ) + 1)) ∧
    (calculate_retrieval_metrics ["a"] {"b"} 7).mrr = 0 :=
  ⟨claim_C2_retrieval_example.2.1 ["a", "b"] {"b"} 7 ["a"] "b" [] rfl (by decide) (by decide),
   claim_C2_retrieval_example.2.2 ["a"] {"b"} 7 (by decide)⟩

/-- Counterexample for C3: with the duplicate retrieved list ["b", "b"] and
relevant set {"b"}, both copies count as relevant hits, so recall@5 = 2/1 = 2,
outside [0,1]. -/
theorem claim_C3_counterexample :
    (calculate_retrieval_metrics ["b", "b"] {"b"} 5).recall_at_k = 2 ∧
    ¬((2 : ℚ) ≤ 1) := by
  constructor
  · have hlen : ((pyTake 5 ["b", "b"]).filter
        (fun doc => doc ∈ ({"b"} : Finset String))).length = 2 := by decide
    rw [crm_recall, hlen]
    rw [if_pos (by decide : ({"b"} : Finset String) ≠ ∅)]
    rw [show ((({"b"} : Finset String).card : ℚ)) = 1 by
      rw [show ({"b"} : Finset String).card = 1 from by decide]; norm_num]
    rw [show (((2 : ℕ) : ℚ) / (1 : ℚ)) = 2 by norm_num]
    exact round3_of_eq_int 2 2000 (by norm_num)
  · norm_num

/-- C3 (amended): precision@K always lies in [0,1]; recall@K is always
nonnegative, and lies in [0,1] whenever the retrieved list contains no
duplicate ids (with duplicates the same relevant id is counted once per
occurrence, which is what the counterexample exploits). -/
theorem claim_C3_bounds : ∀ (retrieved : List String) (relevant : Finset String) (k : ℤ),
    0 ≤ (calculate_retrieval_metrics retrieved relevant k).precision_at_k ∧
    (calculate_retrieval_metrics retrieved relevant k).precision_at_k ≤ 1 ∧
    0 ≤ (calculate_retrieval_metrics retrieved relevant k).recall_at_k ∧
    (retrieved.Nodup → (calculate_retrieval_metrics retrieved relevant k).recall_at_k ≤ 1) := by
  intro retrieved relevant k
  refine ⟨?_, ?_, ?_, ?_⟩
  · rw [crm_precision]
    apply round3_nonneg
    split_ifs with h
    · have : (0 : ℚ) < (k : ℚ) := by exact_mod_cast h
      positivity
    · exact le_refl 0
  · rw [crm_precision]
    apply round3_le_one
    split_ifs with h
    · have hk : (0 : ℚ) < (k : ℚ) := by exact_mod_cast h
      rw [div_le_one hk]
      have hlen : ((pyTake k retrieved).filter (fun doc => decide (doc ∈ relevant))).length
          ≤ k.toNat := by
        refine le_trans (List.length_filter_le _ _) ?_
        rw [pyTake, if_pos (le_of_lt h)]
        exact le_trans (List.length_take _ _).le (min_le_left _ _)
      calc ((((pyTake k retrieved).filter (fun doc => decide (doc ∈ relevant))).length : ℕ) : ℚ)
          ≤ ((k.toNat : ℕ) : ℚ) := by exact_mod_cast hlen
        _ = (k : ℚ) := by
            rw [show ((k.toNat : ℕ) : ℚ) = ((k.toNat : ℤ) : ℚ) by push_cast; ring,
              Int.toNat_of_nonneg (le_of_lt h)]
    · norm_num
  · rw [crm_recall]
    apply round3_nonneg
    split_ifs with h
    · positivity
    · exact le_refl 0
  · intro hnodup
    rw [crm_recall]
    apply round3_le_one
    split_ifs with h
    · have hpos : 0 < relevant.card :=
        Finset.card_pos.mpr (Finset.nonempty_of_ne_empty h)
      have hposq : (0 : ℚ) < (relevant.card : ℚ) := by exact_mod_cast hpos
      rw [div_le_one hposq]
      have hsub : List.Sublist ((pyTake k retrieved).filter (fun doc => decide (doc ∈ relevant)))
          retrieved := by
        refine List.Sublist.trans (List.filter_sublist _) ?_
        rw [pyTake]
        split_ifs <;> exact List.take_sublist _ _
      have hnd : ((pyTake k retrieved).filter (fun doc => decide (doc ∈ relevant))).Nodup :=
        List.Sublist.nodup hsub hnodup
      have hss : ((pyTake k retrieved).filter (fun doc => decide (doc ∈ relevant))).toFinset
          ⊆ relevant := by
        intro x hx
        have hx2 := List.mem_toFinset.mp hx
        have := (List.mem_filter.mp hx2).2
        exact of_decide_eq_true this
      have hcard : ((pyTake k retrieved).filter (fun doc => decide (doc ∈ relevant))).length
          ≤ relevant.card := by
        rw [← List.toFinset_card_of_nodup hnd]
        exact Finset.card_le_card hss
      exact_mod_cast hcard
    · norm_num

/-- Witness for C3 at a concrete input: a duplicate-free retrieved list gives
precision and recall within [0,1]. -/
theorem claim_C3_bounds_witness :
    0 ≤ (calculate_retrieval_metrics ["a", "b"] {"b"} 5).precision_at_k ∧
    (calculate_retrieval_metrics ["a", "b"] {"b"} 5).recall_at_k ≤ 1 :=
  ⟨(claim_C3_bounds ["a", "b"] {"b"} 5).1,
   (claim_C3_bounds ["a", "b"] {"b"} 5).2.2.2 (by decide)⟩

theorem lcsCell_self (l : List String) : ∀ i : ℕ, i ≤ l.length → lcsCell l l i i = i := by
  intro i
  induction i with
  | zero => intro _; rfl
  | succ i ih =>
    intro hle
    have hi : i < l.length := Nat.lt_of_succ_le hle
    have hget : l[i]? = some (l.get ⟨i, hi⟩) := List.getElem?_eq_getElem hi
    rw [show lcsCell l l (i + 1) = lcsRowFn l l (lcsCell l l i) i from rfl]
    rw [lcsRowFn, hget]
    simp only [if_pos rfl]
    rw [ih (Nat.le_of_lt hi)]
    simp

theorem lcsCell_disjoint (ref cand : List String)
    (hdisj : ∀ a ∈ ref, a ∉ cand) : ∀ i j : ℕ, lcsCell ref cand i j = 0 := by
  intro i
  induction i with
  | zero => intro j; rfl
  | succ i ih =>
    intro j
    induction j with
    | zero => rfl
    | succ j ihj =>
      rw [show lcsCell ref cand (i + 1) = lcsRowFn ref cand (lcsCell ref cand i) i from rfl]
      rw [lcsRowFn]
      have hj : lcsRowFn ref cand (lcsCell ref cand i) i j = lcsCell ref cand (i + 1) j := rfl
      rcases h1 : ref[i]? with _ | a <;> rcases h2 : cand[j]? with _ | b
      · simp [hj, ihj, ih]
      · simp [hj, ihj, ih]
      · simp [hj, ihj, ih]
      · have ha : a ∈ ref := by
          have := List.getElem?_eq_some_iff.mp h1
          rcases this with ⟨hlt, hEq⟩
          exact hEq ▸ List.getElem_mem hlt
        have hb : b ∈ cand := by
          have := List.getElem?_eq_some_iff.mp h2
          rcases this with ⟨hlt, hEq⟩
          exact hEq ▸ List.getElem_mem hlt
        have hne : a ≠ b := by
          intro hEq
          exact hdisj a ha (hEq ▸ hb)
        simp [if_neg hne, hj, ihj, ih]

/-- C1: ROUGE-L is 0 when either token sequence is empty; otherwise it is the
harmonic mean of precision = LCS/n and recall = LCS/m computed from the DP
table (0 when precision + recall = 0); it is 1 for texts with identical
non-empty token sequences and 0 for texts sharing no tokens. -/
theorem claim_C1_rouge : ∀ reference candidate : String,
    (tokenize reference = [] ∨ tokenize candidate = [] →
      calculate_rouge_l reference candidate = 0) ∧
    (tokenize reference ≠ [] → tokenize candidate ≠ [] →
      calculate_rouge_l reference candidate =
        (let L : ℚ := (lcsCell (tokenize reference) (tokenize candidate)
            (tokenize reference).length (tokenize candidate).length : ℚ)
         let p : ℚ := L / ((tokenize candidate).length : ℚ)
         let r : ℚ := L / ((tokenize reference).length : ℚ)
         if p + r = 0 then 0 else 2 * p * r / (p + r))) ∧
    (tokenize reference = tokenize candidate → tokenize reference ≠ [] →
      calculate_rouge_l reference candidate = 1) ∧
    ((tokenize reference).toFinset ∩ (tokenize candidate).toFinset = ∅ →
      calculate_rouge_l reference candidate = 0) := by
  intro reference candidate
  refine ⟨?_, ?_, ?_, ?_⟩
  · intro h
    simp only [calculate_rouge_l]
    rw [if_pos h]
  · intro h1 h2
    simp only [calculate_rouge_l]
    rw [if_neg (by push_neg; exact ⟨h1, h2⟩)]
    rw [if_pos (List.length_pos.mpr h2), if_pos (List.length_pos.mpr h1)]
  · intro hEq hne
    have hcne : tokenize candidate ≠ [] := hEq ▸ hne
    simp only [calculate_rouge_l]
    rw [if_neg (by push_neg; exact ⟨hne, hcne⟩)]
    rw [if_pos (List.length_pos.mpr hcne), if_pos (List.length_pos.mpr hne)]
    rw [hEq]
    rw [lcsCell_self (tokenize candidate) (tokenize candidate).length (le_refl _)]
    have h0 : ((tokenize candidate).length : ℚ) ≠ 0 := by
      have := List.length_pos.mpr hcne
      exact_mod_cast Nat.pos_iff_ne_zero.mp this
    rw [div_self h0]
    norm_num
  · intro hd
    by_cases h1 : tokenize reference = []
    · simp only [calculate_rouge_l]
      rw [if_pos (Or.inl h1)]
    by_cases h2 : tokenize candidate = []
    · simp only [calculate_rouge_l]
      rw [if_pos (Or.inr h2)]
    have hdisj : ∀ a ∈ tokenize reference, a ∉ tokenize candidate := by
      intro a ha hb
      have hmem : a ∈ (tokenize reference).toFinset ∩ (tokenize candidate).toFinset :=
        Finset.mem_inter.mpr ⟨List.mem_toFinset.mpr ha, List.mem_toFinset.mpr hb⟩
      rw [hd] at hmem
      exact absurd hmem (Finset.not_mem_empty a)
    simp only [calculate_rouge_l]
    rw [if_neg (by push_neg; exact ⟨h1, h2⟩)]
    rw [lcsCell_disjoint _ _ hdisj]
    rw [if_pos (List.length_pos.mpr h2), if_pos (List.length_pos.mpr h1)]
    norm_num

/-- Witness for C1 at concrete inputs: an empty-token candidate gives 0,
identical texts give 1, token-disjoint texts give 0. -/
theorem claim_C1_rouge_witness :
    calculate_rouge_l "paris" "" = 0 ∧
    (calculate_rouge_l "capital paris" "paris" =
      (let L : ℚ := (lcsCell (tokenize "capital paris") (tokenize "paris")
          (tokenize "capital paris").length (tokenize "paris").length : ℚ)
       let p : ℚ := L / ((tokenize "paris").length : ℚ)
       let r : ℚ := L / ((tokenize "capital paris").length : ℚ)
       if p + r = 0 then 0 else 2 * p * r / (p + r))) ∧
    calculate_rouge_l "capital france" "capital france" = 1 ∧
    calculate_rouge_l "paris" "capital" = 0 :=
  ⟨(claim_C1_rouge "paris" "").1 (Or.inr (by decide)),
   (claim_C1_rouge "capital paris" "paris").2.1 (by decide) (by decide),
   (claim_C1_rouge "capital france" "capital france").2.2.1 rfl (by decide),
   (claim_C1_rouge "paris" "capital").2.2.2 (by decide)⟩

theorem rouge_identical (reference candidate : String)
    (hEq : tokenize reference = tokenize candidate) (hne : tokenize reference ≠ []) :
    calculate_rouge_l reference candidate = 1 := by
  have hcne : tokenize candidate ≠ [] := hEq ▸ hne
  simp only [calculate_rouge_l]
  rw [if_neg (by push_neg; exact ⟨hne, hcne⟩)]
  rw [if_pos (List.length_pos.mpr hcne), if_pos (List.length_pos.mpr hne)]
  rw [hEq]
  rw [lcsCell_self (tokenize candidate) (tokenize candidate).length (le_refl _)]
  have h0 : ((tokenize candidate).length : ℚ) ≠ 0 := by
    have := List.length_pos.mpr hcne
    exact_mod_cast Nat.pos_iff_ne_zero.mp this
  rw [div_self h0]
  norm_num

theorem rouge_disjoint (reference candidate : String)
    (hd : (tokenize reference).toFinset ∩ (tokenize candidate).toFinset = ∅) :
    calculate_rouge_l reference candidate = 0 := by
  by_cases h1 : tokenize reference = []
  · simp only [calculate_rouge_l]
    rw [if_pos (Or.inl h1)]
  by_cases h2 : tokenize candidate = []
  · simp only [calculate_rouge_l]
    rw [if_pos (Or.inr h2)]
  have hdisj : ∀ a ∈ tokenize reference, a ∉ tokenize candidate := by
    intro a ha hb
    have hmem : a ∈ (tokenize reference).toFinset ∩ (tokenize candidate).toFinset :=
      Finset.mem_inter.mpr ⟨List.mem_toFinset.mpr ha, List.mem_toFinset.mpr hb⟩
    rw [hd] at hmem
    exact absurd hmem (Finset.not_mem_empty a)
  simp only [calculate_rouge_l]
  rw [if_neg (by push_neg; exact ⟨h1, h2⟩)]
  rw [lcsCell_disjoint _ _ hdisj]
  rw [if_pos (List.length_pos.mpr h2), if_pos (List.length_pos.mpr h1)]
  norm_num

theorem check_support_identical (claim ctx : String) (hne : tokenize claim ≠ [])
    (hEq : tokenize ctx = tokenize claim) :
    check_claim_support claim ctx = (true, 1) := by
  have hfin : (tokenize claim).toFinset ≠ ∅ := by simp [hne]
  have hcard : ((tokenize claim).toFinset.card : ℚ) ≠ 0 := by
    have hpos := Finset.card_pos.mpr (Finset.nonempty_of_ne_empty hfin)
    exact_mod_cast Nat.pos_iff_ne_zero.mp hpos
  have hr : calculate_rouge_l ctx claim = 1 :=
    rouge_identical ctx claim hEq (by rw [hEq]; exact hne)
  unfold check_claim_support
  rw [if_neg hfin, hEq, Finset.inter_self]
  simp only [div_self hcard, hr]
  norm_num [Prod.ext_iff]

theorem check_support_disjoint (claim ctx : String) (hne : tokenize claim ≠ [])
    (hd : (tokenize claim).toFinset ∩ (tokenize ctx).toFinset = ∅) :
    check_claim_support claim ctx = (false, 0) := by
  have hfin : (tokenize claim).toFinset ≠ ∅ := by simp [hne]
  have hr : calculate_rouge_l ctx claim = 0 :=
    rouge_disjoint ctx claim (by rw [Finset.inter_comm]; exact hd)
  unfold check_claim_support
  rw [if_neg hfin, hd]
  simp only [Finset.card_empty, Nat.cast_zero, zero_div, hr]
  norm_num [Prod.ext_iff]

/-- Counterexample for C6: an answer with three claims of which exactly one is
supported gets faithfulness_score 0.333 (the code rounds to 3 decimals),
which differs from the exact ratio 1/3. -/
theorem claim_C6_counterexample :
    (evaluate_answer_faithfulness "q"
      "alpha beta gamma. delta epsilon zeta. eta theta iota."
      ["alpha beta gamma"] "q1").faithfulness_score = 333/1000 ∧
    (extract_claims "alpha beta gamma. delta epsilon zeta. eta theta iota.").length = 3 ∧
    ((extract_claims "alpha beta gamma. delta epsilon zeta. eta theta iota.").filter
      (fun c => (check_claim_support c (joinSpace ["alpha beta gamma"])).1)).length = 1 ∧
    (333/1000 : ℚ) ≠ 1/3 := by
  have h1 : check_claim_support "alpha beta gamma" "alpha beta gamma" = (true, 1) :=
    check_support_identical _ _ (by decide) rfl
  have h2 : check_claim_support "delta epsilon zeta" "alpha beta gamma" = (false, 0) :=
    check_support_disjoint _ _ (by decide) (by decide)
  have h3 : check_claim_support "eta theta iota" "alpha beta gamma" = (false, 0) :=
    check_support_disjoint _ _ (by decide) (by decide)
  have hclaims : extract_claims "alpha beta gamma. delta epsilon zeta. eta theta iota." =
      ["alpha beta gamma", "delta epsilon zeta", "eta theta iota"] := by decide
  have hjoin : joinSpace ["alpha beta gamma"] = "alpha beta gamma" := rfl
  have hfilter : ((extract_claims "alpha beta gamma. delta epsilon zeta. eta theta iota.").filter
      (fun c => (check_claim_support c (joinSpace ["alpha beta gamma"])).1)) =
      ["alpha beta gamma"] := by
    rw [hclaims, hjoin]
    simp [List.filter_cons, h1, h2, h3]
  refine ⟨?_, by rw [hclaims]; rfl, by rw [hfilter]; rfl, by norm_num⟩
  simp only [evaluate_answer_faithfulness]
  rw [if_pos (by rw [hclaims]; simp : extract_claims
    "alpha beta gamma. delta epsilon zeta. eta theta iota." ≠ [])]
  rw [hfilter, hclaims]
  rw [show ((((["alpha beta gamma"] : List String).length : ℕ) : ℚ) /
    (((["alpha beta gamma", "delta epsilon zeta", "eta theta iota"] : List String).length : ℕ) : ℚ))
    = 1/3 by norm_num]
  exact round3_third

/-- C6 (amended): with zero extracted claims both faithfulness and
groundedness are 1.0; with at least one claim the faithfulness score is the
supported fraction rounded to 3 decimal places (the original claim omitted
the rounding). -/
theorem claim_C6_faithfulness : ∀ (question answer : String) (contexts : List String)
    (question_id : String),
    (extract_claims answer = [] →
      (evaluate_answer_faithfulness question answer contexts question_id).faithfulness_score = 1 ∧
      (evaluate_answer_faithfulness question answer contexts question_id).groundedness_score = 1) ∧
    (extract_claims answer ≠ [] →
      (evaluate_answer_faithfulness question answer contexts question_id).faithfulness_score =
        round3 ((((extract_claims answer).filter
            (fun c => (check_claim_support c (joinSpace contexts)).1)).length : ℚ) /
          ((extract_claims answer).length : ℚ))) := by
  intro question answer contexts question_id
  constructor
  · intro h
    simp only [evaluate_answer_faithfulness]
    rw [h]
    simp [round3_one]
  · intro h
    simp only [evaluate_answer_faithfulness]
    rw [if_pos h]

/-- Witness for C6 at concrete inputs: an empty answer yields scores 1;
a three-claim answer yields the rounded supported fraction. -/
theorem claim_C6_faithfulness_witness :
    ((evaluate_answer_faithfulness "q" "" ["c"] "q1").faithfulness_score = 1 ∧
     (evaluate_answer_faithfulness "q" "" ["c"] "q1").groundedness_score = 1) ∧
    (evaluate_answer_faithfulness "q"
      "alpha beta gamma. delta epsilon zeta. eta theta iota."
      ["alpha beta gamma"] "q1").faithfulness_score =
      round3 ((((extract_claims "alpha beta gamma. delta epsilon zeta. eta theta iota.").filter
          (fun c => (check_claim_support c (joinSpace ["alpha beta gamma"])).1)).length : ℚ) /
        ((extract_claims "alpha beta gamma. delta epsilon zeta. eta theta iota.").length : ℚ)) :=
  ⟨(claim_C6_faithfulness "q" "" ["c"] "q1").1 (by decide),
   (claim_C6_faithfulness "q" "alpha beta gamma. delta epsilon zeta. eta theta iota."
     ["alpha beta gamma"] "q1").2 (by decide)⟩

/-- C9: generate_recommendations emits exactly one message per breached
threshold (relevance < 0.80, faithfulness < 0.95, groundedness < 0.85,
coverage < 0.90, precision@K < 0.70) and the single all-targets-met message
exactly when no threshold is breached. -/
theorem claim_C9_recommendations : ∀ report : RAGEvaluationReport,
    ((generate_recommendations report).count Recommendation.improve_context_relevance =
      if report.avg_context_relevance < 4/5 then 1 else 0) ∧
    ((generate_recommendations report).count Recommendation.improve_faithfulness =
      if report.avg_faithfulness < 19/20 then 1 else 0) ∧
    ((generate_recommendations report).count Recommendation.improve_groundedness =
      if report.avg_groundedness < 17/20 then 1 else 0) ∧
    ((generate_recommendations report).count Recommendation.improve_coverage =
      if report.coverage < 9/10 then 1 else 0) ∧
    ((generate_recommendations report).count Recommendation.improve_retrieval_precision =
      if report.retrieval_metrics.precision_at_k.getD 0 < 7/10 then 1 else 0) ∧
    ((generate_recommendations report).count Recommendation.all_targets_met =
      if report.avg_context_relevance < 4/5 ∨ report.avg_faithfulness < 19/20 ∨
         report.avg_groundedness < 17/20 ∨ report.coverage < 9/10 ∨
         report.retrieval_metrics.precision_at_k.getD 0 < 7/10 then 0 else 1) ∧
    (generate_recommendations report = [Recommendation.all_targets_met] ↔
      ¬(report.avg_context_relevance < 4/5 ∨ report.avg_faithfulness < 19/20 ∨
         report.avg_groundedness < 17/20 ∨ report.coverage < 9/10 ∨
         report.retrieval_metrics.precision_at_k.getD 0 < 7/10)) := by
  intro report
  by_cases h1 : report.avg_context_relevance < 4/5 <;>
  by_cases h2 : report.avg_faithfulness < 19/20 <;>
  by_cases h3 : report.avg_groundedness < 17/20 <;>
  by_cases h4 : report.coverage < 9/10 <;>
  by_cases h5 : report.retrieval_metrics.precision_at_k.getD 0 < 7/10 <;>
  simp [generate_recommendations, h1, h2, h3, h4, h5, List.count_cons, List.count_nil]

theorem processQuestion_qwc (questions : List QuestionData) (contexts : List ContextData)
    (k : ℤ) (verbose : Bool) (st : LoopState) (q : QuestionData) :
    (processQuestion questions contexts k verbose st q).questions_with_context =
      st.questions_with_context +
        (if resolvedContexts questions contexts k q ≠ [] then 1 else 0) := rfl

theorem foldl_qwc (questions : List QuestionData) (contexts : List ContextData)
    (k : ℤ) (verbose : Bool) : ∀ (qs : List QuestionData) (st : LoopState),
    (qs.foldl (processQuestion questions contexts k verbose) st).questions_with_context =
      st.questions_with_context +
        qs.countP (fun q => decide (resolvedContexts questions contexts k q ≠ [])) := by
  intro qs
  induction qs with
  | nil => intro st; simp
  | cons q qs ih =>
    intro st
    rw [List.foldl_cons, ih, processQuestion_qwc, List.countP_cons]
    by_cases h : resolvedContexts questions contexts k q ≠ [] <;> simp [h] <;> omega

theorem coverage_eval (questions : List QuestionData) (contexts : List ContextData)
    (k : ℤ) (verbose : Bool) :
    (evaluate_rag_system questions contexts k verbose).coverage =
      round3 (if questions ≠ [] then
        ((questions.countP (fun q => decide (resolvedContexts questions contexts k q ≠ []))) : ℚ) /
          (questions.length : ℚ)
      else 0) := by
  simp only [evaluate_rag_system]
  rw [foldl_qwc]
  norm_num

/-- Question data of the C8 counterexample: three questions with ids q1-q3. -/
def questionsC8 : List QuestionData :=
  [{ id := some "q1", question := some "", query := none, answer := none,
     response := none, expected := none, ground_truth := none },
   { id := some "q2", question := some "", query := none, answer := none,
     response := none, expected := none, ground_truth := none },
   { id := some "q3", question := some "", query := none, answer := none,
     response := none, expected := none, ground_truth := none }]

/-- Context pool of the C8 counterexample: one context linked to q1. -/
def contextsC8 : List ContextData :=
  [{ question_id := some "q1", query_id := none, content := some "x", text := none }]

/-- Counterexample for C8: three questions, one explicitly linked context,
K = 0 (so the fallback assigns no contexts): one question of three resolves a
context, and the reported coverage is 0.333 (rounded to 3 decimals), which
differs from the exact ratio 1/3. -/
theorem claim_C8_counterexample :
    (evaluate_rag_system questionsC8 contextsC8 0 false).coverage = 333/1000 ∧
    (333/1000 : ℚ) ≠ 1/3 := by
  constructor
  · rw [coverage_eval]
    rw [if_pos (by decide : questionsC8 ≠ [])]
    rw [show questionsC8.countP
        (fun q => decide (resolvedContexts questionsC8 contextsC8 0 q ≠ [])) = 1 from by decide]
    rw [show questionsC8.length = 3 from by decide]
    rw [show ((((1 : ℕ) : ℚ)) / (((3 : ℕ) : ℚ))) = 1/3 by norm_num]
    exact round3_third
  · norm_num

/-- C8 (amended): a question with no explicitly linked contexts is assigned
the first K contexts of the pool; the reported coverage is the fraction of
questions resolving at least one context, rounded to 3 decimal places (the
original claim omitted the rounding); and for a non-empty question list the
unrounded fraction equals 1 exactly when every question resolves at least one
context. -/
theorem claim_C8_coverage : ∀ (questions : List QuestionData) (contexts : List ContextData)
    (k : ℤ) (verbose : Bool),
    (∀ q : QuestionData,
      contexts.filter (fun c => c.question_id = some (questionIdOf questions q) ∨
        c.query_id = some (questionIdOf questions q)) = [] →
      resolvedContexts questions contexts k q = (pyTake k contexts).map contentOf) ∧
    (evaluate_rag_system questions contexts k verbose).coverage =
      round3 (if questions ≠ [] then
        ((questions.countP (fun q => decide (resolvedContexts questions contexts k q ≠ []))) : ℚ) /
          (questions.length : ℚ)
      else 0) ∧
    (questions ≠ [] →
      (((questions.countP (fun q => decide (resolvedContexts questions contexts k q ≠ []))) : ℚ) /
          (questions.length : ℚ) = 1 ↔
        ∀ q ∈ questions, resolvedContexts questions contexts k q ≠ [])) := by
  intro questions contexts k verbose
  refine ⟨?_, coverage_eval questions contexts k verbose, ?_⟩
  · intro q h
    simp only [resolvedContexts]
    rw [h]
    simp
  · intro h
    have hlen : ((questions.length : ℕ) : ℚ) ≠ 0 := by
      have := List.length_pos.mpr h
      exact_mod_cast Nat.pos_iff_ne_zero.mp this
    rw [div_eq_one_iff_eq hlen, Nat.cast_inj]
    rw [List.countP_eq_length]
    constructor
    · intro hall q hq
      exact of_decide_eq_true (hall q hq)
    · intro hall q hq
      exact decide_eq_true (hall q hq)

/-- Witness for C8 at the concrete three-question dataset: question q2 has no
explicit link so it falls back to the first K pool contexts, and the coverage
fraction is 1 exactly when all three questions resolve a context (here it is
not, since K = 0 empties the fallback). -/
theorem claim_C8_coverage_witness :
    resolvedContexts questionsC8 contextsC8 0
      { id := some "q2", question := some "", query := none, answer := none,
        response := none, expected := none, ground_truth := none } =
      (pyTake 0 contextsC8).map contentOf ∧
    (((questionsC8.countP
        (fun q => decide (resolvedContexts questionsC8 contextsC8 0 q ≠ []))) : ℚ) /
      (questionsC8.length : ℚ) = 1 ↔
      ∀ q ∈ questionsC8, resolvedContexts questionsC8 contextsC8 0 q ≠ []) :=
  ⟨(claim_C8_coverage questionsC8 contextsC8 0 false).1 _ (by decide),
   (claim_C8_coverage questionsC8 contextsC8 0 false).2.2 (by decide)⟩

/-- Character-list view of `' '.join`: the lists joined by single spaces. -/
def joinChars : List (List Char) → List Char
  | [] => []
  | [w] => w
  | w :: w2 :: ws => w ++ ' ' :: joinChars (w2 :: ws)

theorem joinSpace_data : ∀ ts : List String,
    (joinSpace ts).data = joinChars (ts.map String.data) := by
  intro ts
  induction ts with
  | nil => rfl
  | cons t ts ih =>
    cases ts with
    | nil => rfl
    | cons t2 ts2 =>
      show ((t ++ " ") ++ joinSpace (t2 :: ts2)).data =
        t.data ++ ' ' :: joinChars ((t2 :: ts2).map String.data)
      have hd : ((t ++ " ") ++ joinSpace (t2 :: ts2)).data =
          (t.data ++ [' ']) ++ (joinSpace (t2 :: ts2)).data := rfl
      rw [hd, ih]
      simp [List.append_assoc]

theorem map_pyLower_fixed : ∀ l : List Char, (∀ c ∈ l, pyLower c = c) →
    l.map pyLower = l := by
  intro l
  induction l with
  | nil => intro _; rfl
  | cons c cs ih =>
    intro h
    simp only [List.map_cons, h c (by simp), ih (fun x hx => h x (by simp [hx]))]

theorem joinChars_map_fixed : ∀ ws : List (List Char),
    (∀ w ∈ ws, ∀ c ∈ w, pyLower c = c) →
    (joinChars ws).map pyLower = joinChars ws := by
  intro ws
  induction ws with
  | nil => intro _; rfl
  | cons w ws ih =>
    intro h
    cases ws with
    | nil => exact map_pyLower_fixed w (h w (by simp))
    | cons w2 ws2 =>
      show (w ++ ' ' :: joinChars (w2 :: ws2)).map pyLower = w ++ ' ' :: joinChars (w2 :: ws2)
      rw [List.map_append, List.map_cons]
      rw [map_pyLower_fixed w (h w (by simp))]
      rw [show pyLower ' ' = ' ' from rfl]
      rw [ih (fun x hx => h x (by simp [hx]))]

theorem wordRunsAux_sound (p : Char → Prop) : ∀ (l acc : List Char),
    (∀ c ∈ l, p c) → (∀ c ∈ acc, p c ∧ isWordChar c = true) →
    ∀ r ∈ wordRunsAux l acc, r ≠ [] ∧ ∀ c ∈ r, p c ∧ isWordChar c = true := by
  intro l
  induction l with
  | nil =>
    intro acc _ hacc r hr
    by_cases h : acc = []
    · simp [wordRunsAux, h] at hr
    · simp only [wordRunsAux, if_neg h, List.mem_singleton] at hr
      subst hr
      exact ⟨h, hacc⟩
  | cons c cs ih =>
    intro acc hl hacc r hr
    simp only [wordRunsAux] at hr
    by_cases hw : isWordChar c
    · rw [if_pos hw] at hr
      refine ih (acc ++ [c]) (fun x hx => hl x (List.mem_cons_of_mem c hx)) ?_ r hr
      intro x hx
      rcases List.mem_append.mp hx with h1 | h2
      · exact hacc x h1
      · rw [List.mem_singleton.mp h2]
        exact ⟨hl c (List.mem_cons_self c cs), hw⟩
    · rw [if_neg hw] at hr
      by_cases he : acc = []
      · rw [if_pos he] at hr
        exact ih [] (fun x hx => hl x (List.mem_cons_of_mem c hx)) (by simp) r hr
      · rw [if_neg he] at hr
        rcases List.mem_cons.mp hr with hr | hr
        · subst hr
          exact ⟨he, hacc⟩
        · exact ih [] (fun x hx => hl x (List.mem_cons_of_mem c hx)) (by simp) r hr

theorem wordRunsAux_word_append : ∀ (w : List Char), (∀ c ∈ w, isWordChar c = true) →
    ∀ (rest acc : List Char), wordRunsAux (w ++ rest) acc = wordRunsAux rest (acc ++ w) := by
  intro w
  induction w with
  | nil => intro _ rest acc; simp
  | cons c w ih =>
    intro hw rest acc
    have hc : isWordChar c = true := hw c (by simp)
    show wordRunsAux (c :: (w ++ rest)) acc = _
    simp only [wordRunsAux, if_pos hc]
    rw [ih (fun x hx => hw x (by simp [hx])) rest (acc ++ [c])]
    simp [List.append_assoc]

theorem wordRuns_joinChars : ∀ ws : List (List Char),
    (∀ w ∈ ws, w ≠ [] ∧ ∀ c ∈ w, isWordChar c = true) →
    wordRuns (joinChars ws) = ws := by
  intro ws
  induction ws with
  | nil => intro _; rfl
  | cons w ws ih =>
    intro h
    have hw := h w (by simp)
    cases ws with
    | nil =>
      show wordRuns w = [w]
      rw [wordRuns]
      have happ := wordRunsAux_word_append w hw.2 [] []
      rw [List.append_nil, List.nil_append] at happ
      rw [happ]
      simp only [wordRunsAux, if_neg hw.1]
    | cons w2 ws2 =>
      show wordRuns (w ++ ' ' :: joinChars (w2 :: ws2)) = w :: (w2 :: ws2)
      rw [wordRuns]
      rw [wordRunsAux_word_append w hw.2 (' ' :: joinChars (w2 :: ws2)) []]
      rw [List.nil_append]
      simp only [wordRunsAux, if_neg (by decide : ¬(isWordChar ' ' = true)), if_neg hw.1]
      rw [show wordRunsAux (joinChars (w2 :: ws2)) [] = wordRuns (joinChars (w2 :: ws2)) from rfl]
      rw [ih (fun x hx => h x (by simp [hx]))]

theorem tokenize_sound (s : String) : ∀ t ∈ tokenize s,
    2 < t.length ∧ t ∉ stopwords ∧ t.data ≠ [] ∧
      ∀ c ∈ t.data, isWordChar c = true ∧ pyLower c = c := by
  intro t ht
  unfold tokenize at ht
  rcases List.mem_filter.mp ht with ⟨hmem, hcond⟩
  rcases Bool.and_eq_true_iff.mp hcond with ⟨hc1, hc2⟩
  have hlen : 2 < t.length := of_decide_eq_true hc2
  have hstop : t ∉ stopwords := by
    intro hmem2
    rw [Bool.not_eq_true'] at hc1
    have : stopwords.contains t = true := List.elem_iff.mpr hmem2
    rw [this] at hc1
    cases hc1
  rcases List.mem_map.mp hmem with ⟨r, hrmem, rfl⟩
  have hsound := wordRunsAux_sound (fun c => pyLower c = c) (s.data.map pyLower) []
    (by
      intro c hc
      rcases List.mem_map.mp hc with ⟨d, _, rfl⟩
      exact pyLower_idem d)
    (by simp) r hrmem
  refine ⟨hlen, hstop, hsound.1, ?_⟩
  intro c hc
  exact ⟨(hsound.2 c hc).2, (hsound.2 c hc).1⟩

/-- C10: every token emitted by the tokenizer is longer than 2 characters,
is not a stopword, and consists only of lowercase-fixed word characters;
consequently tokenization is idempotent: re-tokenizing the space-joined
token list returns the same list. -/
theorem claim_C10_tokenize_idem : ∀ s : String,
    (∀ t ∈ tokenize s, 2 < t.length ∧ t ∉ stopwords ∧
      ∀ c ∈ t.data, isWordChar c = true ∧ pyLower c = c) ∧
    tokenize (joinSpace (tokenize s)) = tokenize s := by
  intro s
  have hsound := tokenize_sound s
  refine ⟨fun t ht => ⟨(hsound t ht).1, (hsound t ht).2.1, (hsound t ht).2.2.2⟩, ?_⟩
  have hws : ∀ w ∈ (tokenize s).map String.data, w ≠ [] ∧ ∀ c ∈ w, isWordChar c = true := by
    intro w hw
    rcases List.mem_map.mp hw with ⟨t, ht, rfl⟩
    exact ⟨(hsound t ht).2.2.1, fun c hc => ((hsound t ht).2.2.2 c hc).1⟩
  have hfix : ∀ w ∈ (tokenize s).map String.data, ∀ c ∈ w, pyLower c = c := by
    intro w hw
    rcases List.mem_map.mp hw with ⟨t, ht, rfl⟩
    exact fun c hc => ((hsound t ht).2.2.2 c hc).2
  have h1 : (joinSpace (tokenize s)).data.map pyLower =
      joinChars ((tokenize s).map String.data) := by
    rw [joinSpace_data]
    exact joinChars_map_fixed _ hfix
  have hdef : tokenize (joinSpace (tokenize s)) =
      ((wordRuns ((joinSpace (tokenize s)).data.map pyLower)).map
        (fun cs => String.mk cs)).filter
        (fun t => !(stopwords.contains t) && decide (2 < t.length)) := rfl
  rw [hdef, h1, wordRuns_joinChars _ hws, List.map_map]
  have hmkdata : (tokenize s).map ((fun cs => String.mk cs) ∘ String.data) = tokenize s := by
    have hid : ∀ t ∈ tokenize s, ((fun cs => String.mk cs) ∘ String.data) t = t := by
      intro t _
      cases t
      rfl
    rw [List.map_congr_left hid, List.map_id']
  rw [hmkdata]
  apply List.filter_eq_self.mpr
  intro t ht
  have h := hsound t ht
  rw [Bool.and_eq_true_iff]
  constructor
  · rw [Bool.not_eq_true']
    by_cases hc : stopwords.contains t = true
    · exact absurd (List.elem_iff.mp hc) h.2.1
    · exact Bool.eq_false_iff.mpr hc
  · exact decide_eq_true h.1

/-- Witness for C10 at a concrete input: the token "capital" satisfies all
emitted-token invariants, and re-tokenizing the joined token list of a
concrete text returns the same token list. -/
theorem claim_C10_tokenize_idem_witness :
    (2 < ("capital" : String).length ∧ "capital" ∉ stopwords ∧
      ∀ c ∈ ("capital" : String).data, isWordChar c = true ∧ pyLower c = c) ∧
    tokenize (joinSpace (tokenize "The capital of France")) =
      tokenize "The capital of France" :=
  ⟨(claim_C10_tokenize_idem "The capital of France").1 "capital" (by decide),
   (claim_C10_tokenize_idem "The capital of France").2⟩
